import Mathlib

/-!
Shallow embedding of `src/demo/main.py`, a FastAPI relay between browser
websocket clients and a local Ollama inference server.  Pure functions are
translated directly; the asynchronous handlers and the wake loop are
modelled as explicit state-passing functions whose inputs (inbound
messages, backend line streams, per-cycle flag readings) are data.
-/

/-- A websocket connection handle; identity-based equality, modelled by `Nat`. -/
abbrev Conn := Nat

/-- One parsed tool call: `{"name": ..., "args": {...}}` (`parse_tool_calls`). -/
structure ToolCall where
  name : String
  args : List (String × String)
deriving DecidableEq, Repr

/-- One conversation-history entry: `{"timestamp": ..., "thought": ...}`. -/
structure HistEntry where
  timestamp : String
  thought : String
deriving DecidableEq, Repr

/-- Outbound websocket events sent by the handlers (json payload types).
`sleepDelay n` records an `asyncio.sleep(n)` between cycles. -/
inductive Event where
  | status (message : String)
  | invocation (message : String)
  | thought_start
  | thought_chunk (content : String)
  | thought (content : String) (done : Bool)
  | output (content : String) (done : Bool)
  | tool_call_evt (tool : String) (message : String)
  | user_message (content : String)
  | error (message : String)
  | sleepDelay (seconds : Nat)
deriving DecidableEq, Repr

/-! ## Tool-call parser (`parse_tool_calls`, main.py lines 350-365)

The Python scans `text` with
`re.finditer(r'<tool_call>send_message_to_user\("([^"]+)"\)</tool_call>', text)`.
`finditer` yields non-overlapping matches left to right: at each start
position it tries the literal open text, then `[^"]+` (a non-empty run of
non-quote characters, necessarily ending at the first quote), then the
literal close text; on failure the start position advances by one
character, on success scanning resumes after the match. -/

/-- The literal opening text of the pattern, up to and including the opening quote. -/
def openLit : List Char := "<tool_call>send_message_to_user(\"".data

/-- The literal text of the pattern after the content's closing quote. -/
def closeTail : List Char := ")</tool_call>".data

/-- The literal closing text of the pattern, starting at the closing quote. -/
def closeLit : List Char := "\")</tool_call>".data

/-- The full marker text for content `c`: `<tool_call>send_message_to_user("c")</tool_call>`. -/
def markerOf (c : List Char) : List Char := openLit ++ c ++ closeLit

/-- The tool call built for one regex match with captured content `c`. -/
def mkToolCall (c : List Char) : ToolCall :=
  ⟨"send_message_to_user", [("message", String.mk c)]⟩

/-- The character class `[^"]` of the pattern. -/
def notQuote (a : Char) : Bool := a != '"'

/-- Strip the literal `p` from the front of `s`; `none` when `s` does not start with `p`. -/
def dropLit : List Char → List Char → Option (List Char)
  | [], s => some s
  | _ :: _, [] => none
  | p :: ps, c :: cs => if p = c then dropLit ps cs else none

/-- Attempt the whole regex pattern at the start of `s`.  On success returns
the captured content and the remainder of `s` after the match. -/
def tryMatch (s : List Char) : Option (List Char × List Char) :=
  match dropLit openLit s with
  | none => none
  | some afterOpen =>
    if (afterOpen.takeWhile notQuote).isEmpty then none
    else
      match dropLit closeLit (afterOpen.dropWhile notQuote) with
      | none => none
      | some remaining => some (afterOpen.takeWhile notQuote, remaining)

/-- Fuel-indexed scan: at each position try the pattern; on failure advance
one character, on success emit the call and resume after the match.  Fuel
equal to the input length always suffices (each step consumes at least one
character). -/
def parseAux : Nat → List Char → List ToolCall
  | 0, _ => []
  | _ + 1, [] => []
  | fuel + 1, c :: rest =>
    match tryMatch (c :: rest) with
    | some (content, remaining) => mkToolCall content :: parseAux fuel remaining
    | none => parseAux fuel rest

/-- The finditer scan over a character list. -/
def parseCL (s : List Char) : List ToolCall := parseAux s.length s

/-- `parse_tool_calls` (main.py lines 350-365). -/
def parse_tool_calls (text : String) : List ToolCall := parseCL text.data

/-- Interleaving of plain text and well-formed markers: `t0` followed by,
for each pair `(c, t)`, the marker for content `c` and then the text `t`. -/
def assembleCL (t0 : List Char) (rest : List (List Char × List Char)) : List Char :=
  t0 ++ (rest.map (fun p => markerOf p.1 ++ p.2)).flatten

/-! ## Generation streams (`stream_thoughts_to_ollama` / `stream_outputs_to_ollama`,
main.py lines 85-156)

One backend line (`response.aiter_lines()`) goes through
`try: data = json.loads(line) ... except json.JSONDecodeError: continue`.
`RawLine` below classifies the full behaviour of that step, including the
valid-JSON non-object line on which `data.get` raises an `AttributeError`
that the `except` clause does not catch; `BackendLine` is the abort-free
fragment of that classification: `none` for a line that is empty (skipped
by `if line:`) or fails `json.loads` (skipped by the `except`), and
`some (response, done)` for a decoded object after the `data.get`
defaults. -/

/-- One line of backend output after the decode step, restricted to the
abort-free outcomes; `RawLine` has the full classification. -/
abbrev BackendLine := Option (String × Bool)

/-- Outcome of one streaming request to the backend: the connection attempt
raises `httpx.RequestError`, or it yields a sequence of lines. -/
inductive GenOutcome where
  | transportError (msg : String)
  | ok (lines : List BackendLine)
deriving DecidableEq, Repr

/-- The `async for line in response.aiter_lines()` loop of
`stream_thoughts_to_ollama`: skip undecodable lines, send one `thought`
event per decoded line, stop after a `done` line. -/
def streamThoughtLines : List BackendLine → List Event
  | [] => []
  | none :: rest => streamThoughtLines rest
  | some (resp, done) :: rest =>
    Event.thought resp done :: (if done then [] else streamThoughtLines rest)

/-- `stream_thoughts_to_ollama` (main.py lines 85-119): the events sent to
the websocket for one generation request. -/
def stream_thoughts_to_ollama : GenOutcome → List Event
  | GenOutcome.transportError m => [Event.error ("Error connecting to Ollama: " ++ m)]
  | GenOutcome.ok lines => streamThoughtLines lines

/-- The line loop of `stream_outputs_to_ollama`, identical to the thoughts
variant but emitting `output` events. -/
def streamOutputLines : List BackendLine → List Event
  | [] => []
  | none :: rest => streamOutputLines rest
  | some (resp, done) :: rest =>
    Event.output resp done :: (if done then [] else streamOutputLines rest)

/-- `stream_outputs_to_ollama` (main.py lines 122-156). -/
def stream_outputs_to_ollama : GenOutcome → List Event
  | GenOutcome.transportError m => [Event.error ("Error connecting to Ollama: " ++ m)]
  | GenOutcome.ok lines => streamOutputLines lines

/-- Specification-side helper: a line stream truncated at the first
`done`-flagged element (inclusive). -/
def truncAtDone : List (String × Bool) → List (String × Bool)
  | [] => []
  | p :: rest => p :: (if p.2 then [] else truncAtDone rest)

/-- Specification-side helper: the concatenated response text up to and
including the first `done`-flagged element. -/
def fullOf : List (String × Bool) → String
  | [] => ""
  | (r, d) :: rest => r ++ (if d then "" else fullOf rest)

/-- One line of backend output under the full behaviour of the decode
step:
`skipped` — the line is empty (filtered by `if line:`) or `json.loads`
raises `json.JSONDecodeError`, which is caught and the line skipped;
`obj response done` — the line decodes to a JSON object, whose fields are
read with the `data.get` defaults;
`nonObject` — the line is valid JSON but not an object (for example the
line `42`): `json.loads` succeeds and `data.get("response", "")` then
raises `AttributeError`, which `except json.JSONDecodeError` does not
catch, so the exception leaves the line loop. -/
inductive RawLine where
  | skipped
  | obj (response : String) (done : Bool)
  | nonObject
deriving DecidableEq, Repr

/-- The `RawLine` a non-raising `BackendLine` corresponds to. -/
def rawOf : BackendLine → RawLine
  | none => RawLine.skipped
  | some (r, d) => RawLine.obj r d

/-- The thoughts line loop (main.py lines 100-114) under the full decode
behaviour: the events sent, and whether an uncaught `AttributeError`
aborted the loop.  Nothing else in `stream_thoughts_to_ollama` catches
that exception (only `httpx.RequestError` is handled), so an abort
terminates the stream and escapes the endpoint handler. -/
def streamThoughtLinesRaw : List RawLine → List Event × Bool
  | [] => ([], false)
  | RawLine.skipped :: rest => streamThoughtLinesRaw rest
  | RawLine.nonObject :: _ => ([], true)
  | RawLine.obj resp done :: rest =>
    if done then ([Event.thought resp done], false)
    else
      let r := streamThoughtLinesRaw rest
      (Event.thought resp done :: r.1, r.2)

/-! ## Broadcast fan-out (`broadcast_to_thoughts` / `broadcast_to_outputs`,
main.py lines 159-182)

The per-channel connection set is modelled as a list; `sendOk c` abstracts
whether `connection.send_json` succeeds for `c`. -/

/-- The `for connection in ...: try/except` loop: returns the connections
delivered to and the `disconnected` set collected, in iteration order. -/
def broadcastRun (sendOk : Conn → Bool) : List Conn → List Conn × List Conn
  | [] => ([], [])
  | c :: rest =>
    let p := broadcastRun sendOk rest
    if sendOk c then (c :: p.1, p.2) else (p.1, c :: p.2)

/-- `broadcast_to_thoughts` (main.py lines 159-169): returns the delivered
connections and the channel membership after `difference_update(disconnected)`. -/
def broadcast_to_thoughts (conns : List Conn) (sendOk : Conn → Bool) :
    List Conn × List Conn :=
  let r := broadcastRun sendOk conns
  (r.1, conns.filter (fun c => !(r.2.contains c)))

/-- `broadcast_to_outputs` (main.py lines 172-182), same shape as the
thoughts variant. -/
def broadcast_to_outputs (conns : List Conn) (sendOk : Conn → Bool) :
    List Conn × List Conn :=
  let r := broadcastRun sendOk conns
  (r.1, conns.filter (fun c => !(r.2.contains c)))

/-! ## Prompt composition (`wake_up_loop`, main.py lines 229-251) -/

/-- The triple-quoted system preamble (main.py lines 233-240). -/
def system_preamble : String :=
  "You are an AI that thinks before speaking. You have access to a tool to send messages to the user.\n\nTOOL: send_message_to_user\nDescription: Use this tool to send a message to the user. This is the ONLY way to communicate with the user.\nFormat: <tool_call>send_message_to_user(\"your message here\")</tool_call>\n\nYour previous thoughts:\n"

/-- The placeholder appended when the history is empty (main.py line 249). -/
def no_thoughts_placeholder : String := "\n(No previous thoughts yet)\n"

/-- The trailing continuation instruction (main.py line 251). -/
def continuation_instruction : String :=
  "\n\nContinue thinking. If you want to send a message to the user, use the send_message_to_user tool."

/-- One history entry rendered into the prompt (main.py line 247). -/
def renderEntry (e : HistEntry) : String :=
  "\n[" ++ e.timestamp ++ "] " ++ e.thought ++ "\n"

/-- The prompt built by one cycle of `wake_up_loop` (main.py lines 232-251). -/
def compose_prompt (history : List HistEntry) : String :=
  (if history.isEmpty then system_preamble ++ no_thoughts_placeholder
   else history.foldl (fun acc e => acc ++ renderEntry e) system_preamble)
  ++ continuation_instruction

/-! ## Wake loop (`wake_up_loop`, main.py lines 225-347) -/

/-- What the backend interaction of one cycle amounts to: an
`httpx.RequestError` (caught by the inner `except`), any other exception
(caught by the outer `except Exception`, modelled as raised at the start of
the cycle body), or a stream of lines. -/
inductive BackendResult where
  | transportError (msg : String)
  | unexpectedError (msg : String)
  | ok (lines : List BackendLine)
deriving DecidableEq, Repr

/-- The chunk-consumption loop of `wake_up_loop` (main.py lines 284-301)
over abort-free lines: accumulate `full_response`, send one
`thought_chunk` per decoded line, stop after a `done` line.
`runChunksRaw` covers the full decode behaviour. -/
def runChunks : List BackendLine → String → String × List Event
  | [], acc => (acc, [])
  | none :: rest, acc => runChunks rest acc
  | some (resp, done) :: rest, acc =>
    if done then (acc ++ resp, [Event.thought_chunk resp])
    else
      let r := runChunks rest (acc ++ resp)
      (r.1, Event.thought_chunk resp :: r.2)

/-- The wake loop's chunk loop (main.py lines 284-301) under the full
decode behaviour: the accumulated `full_response`, the `thought_chunk`
events sent, and whether `data.get` raised `AttributeError` on a
valid-JSON non-object line — the `chunk = data.get("response", "")` raise
happens before the accumulation and the send for that line, leaves the
chunk loop (the inner `except` handles only `httpx.RequestError`) and
reaches the outer `except Exception` as an aborted cycle. -/
def runChunksRaw : List RawLine → String → String × List Event × Bool
  | [], acc => (acc, [], false)
  | RawLine.skipped :: rest, acc => runChunksRaw rest acc
  | RawLine.nonObject :: _, acc => (acc, [], true)
  | RawLine.obj resp done :: rest, acc =>
    if done then (acc ++ resp, [Event.thought_chunk resp], false)
    else
      let r := runChunksRaw rest (acc ++ resp)
      (r.1, Event.thought_chunk resp :: r.2.1, r.2.2)

/-- `tool_call.get("args", {}).get("message", "")` (main.py line 314). -/
def argMessage (tc : ToolCall) : String :=
  ((tc.args.find? (fun p => p.1 = "message")).map (fun p => p.2)).getD ""

/-- One iteration of the `while` body of `wake_up_loop` (main.py lines
228-347), in the fragment where every `send_json` on the wakeup socket
succeeds: returns the updated history and the events sent (websocket
sends, the broadcast to the outputs channel, and the inter-cycle delays).
`wake_up_cycleFull` makes the error-report sends fallible. -/
def wake_up_cycle (history : List HistEntry) (ts : String) (res : BackendResult) :
    List HistEntry × List Event :=
  match res with
  | BackendResult.unexpectedError m =>
    (history, [Event.error ("Error in wake up loop: " ++ m), Event.sleepDelay 5])
  | BackendResult.transportError m =>
    (history, [Event.invocation "Invoking LLM...", Event.thought_start,
               Event.error ("Error connecting to Ollama: " ++ m), Event.sleepDelay 5])
  | BackendResult.ok lines =>
    let r := runChunks lines ""
    let calls := parse_tool_calls r.1
    (history ++ [⟨ts, r.1⟩],
     [Event.invocation "Invoking LLM...", Event.thought_start] ++ r.2
       ++ (calls.map (fun tc =>
            if tc.name = "send_message_to_user" then
              [Event.user_message (argMessage tc),
               Event.tool_call_evt "send_message_to_user" (argMessage tc)]
            else [])).flatten
       ++ [Event.sleepDelay 1])

/-- The environment one loop iteration runs in: the value
`wake_up_active.get(websocket, False)` reads at the `while` check, the
cycle's timestamp, and the backend interaction's outcome. -/
structure CycleEnv where
  active : Bool
  ts : String
  res : BackendResult
deriving DecidableEq, Repr

/-- `wake_up_loop` (main.py lines 225-347) run against a finite list of
per-iteration environments, in the fragment where every `send_json` on the
wakeup socket succeeds: returns the final history, the event trace, and
whether the loop terminated by observing `active = false` (`true`) or the
supplied environments ran out with the loop still running (`false`).
`wake_up_loopFull` adds the escape path of a failing error-report send. -/
def wake_up_loop : List CycleEnv → List HistEntry → List HistEntry × List Event × Bool
  | [], h => (h, [], false)
  | env :: rest, h =>
    if env.active then
      let c := wake_up_cycle h env.ts env.res
      let r := wake_up_loop rest c.1
      (r.1, c.2 ++ r.2.1, r.2.2)
    else (h, [], true)

/-- The environment one full-model loop iteration runs in: the `while`
check's flag reading, the cycle's timestamp, the backend outcome, and
whether a `send_json` on the wakeup socket still succeeds while this
cycle's error handling runs (false once the client has disconnected and
the socket is closed). -/
structure CycleEnvFull where
  active : Bool
  ts : String
  res : BackendResult
  reportOk : Bool
deriving DecidableEq, Repr

/-- One cycle of `wake_up_loop` with the fallibility of the wakeup
socket's own `send_json` made explicit.  `unexpectedError m` stands for
any exception escaping the cycle body to the outer `except Exception` at
line 341: the `KeyError` at the line-304 history append once the
disconnect cleanup popped `conversation_histories`, the `AttributeError`
from a valid-JSON non-object chunk line, or a failed body send.  The
handlers report the error with their own unguarded `send_json` (lines
334-338 and 342-346): if that send succeeds the error event and the
5-second backoff follow; if it raises (dead socket) nothing catches the
new exception — for a transport error the inner handler's raise lands in
the outer handler whose send on the same socket raises again — and it
escapes `wake_up_loop`.  The returned flag records that escape. -/
def wake_up_cycleFull (history : List HistEntry) (env : CycleEnvFull) :
    List HistEntry × List Event × Bool :=
  match env.res with
  | BackendResult.unexpectedError m =>
    if env.reportOk then
      (history, [Event.error ("Error in wake up loop: " ++ m), Event.sleepDelay 5], false)
    else (history, [], true)
  | BackendResult.transportError m =>
    if env.reportOk then
      (history, [Event.invocation "Invoking LLM...", Event.thought_start,
                 Event.error ("Error connecting to Ollama: " ++ m), Event.sleepDelay 5],
       false)
    else (history, [Event.invocation "Invoking LLM...", Event.thought_start], true)
  | BackendResult.ok lines =>
    let c := wake_up_cycle history env.ts (BackendResult.ok lines)
    (c.1, c.2, false)

/-- How a run of the full-model loop ended: the supplied environments ran
out with the loop still running, the `while` check observed
`active = false`, or an exception escaped `wake_up_loop` and killed the
task. -/
inductive LoopExit where
  | envsExhausted
  | sawInactive
  | escaped
deriving DecidableEq, Repr

/-- `wake_up_loop` under the full model: like `wake_up_loop`, but a cycle
whose error-report send raises ends the run with `LoopExit.escaped` — the
remaining environments are never processed. -/
def wake_up_loopFull :
    List CycleEnvFull → List HistEntry → List HistEntry × List Event × LoopExit
  | [], h => (h, [], LoopExit.envsExhausted)
  | env :: rest, h =>
    if env.active then
      let c := wake_up_cycleFull h env
      if c.2.2 then (c.1, c.2.1, LoopExit.escaped)
      else
        let r := wake_up_loopFull rest c.1
        (r.1, c.2.1 ++ r.2.1, r.2.2)
    else (h, [], LoopExit.sawInactive)

/-! ## Wakeup websocket handler (`websocket_wakeup`, main.py lines 185-222) -/

/-- The per-session state the handler touches, plus a count of
`asyncio.create_task(wake_up_loop(...))` calls made (live loop tasks). -/
structure WakeHandlerState where
  active : Bool
  tasks : Nat
deriving DecidableEq, Repr

/-- Inbound messages on the wakeup channel (`message.get("type")`). -/
inductive InMsg where
  | wake_up
  | sleep
  | other
deriving DecidableEq, Repr

/-- The message dispatch of `websocket_wakeup` (main.py lines 200-216):
`wake_up` sets the flag true, sends a status event and spawns a loop task;
`sleep` clears the flag and sends a status event; anything else is ignored. -/
def websocket_wakeup_handle (st : WakeHandlerState) (msg : InMsg) :
    WakeHandlerState × List Event :=
  match msg with
  | InMsg.wake_up => (⟨true, st.tasks + 1⟩, [Event.status "AI is waking up..."])
  | InMsg.sleep => (⟨false, st.tasks⟩, [Event.status "AI is going to sleep..."])
  | InMsg.other => (st, [])

/-! ## Module-level connection state and disconnect cleanup -/

/-- The module-level mutable maps of main.py (lines 15-21), with dictionaries
as association lists. -/
structure ServerState where
  thoughts_connections : List Conn
  outputs_connections : List Conn
  wake_up_connections : List Conn
  conversation_histories : List (Conn × List HistEntry)
  wake_up_active : List (Conn × Bool)
deriving DecidableEq, Repr

/-- `wake_up_active.get(websocket, False)`: the loop's `while` condition. -/
def activeGetD (m : List (Conn × Bool)) (c : Conn) : Bool :=
  ((m.find? (fun p => p.1 = c)).map (fun p => p.2)).getD false

/-- `conversation_histories.get(websocket)` as an optional lookup. -/
def lookupHist (m : List (Conn × List HistEntry)) (c : Conn) : Option (List HistEntry) :=
  (m.find? (fun p => p.1 = c)).map (fun p => p.2)

/-- `wake_up_active` lookup without default. -/
def lookupActive (m : List (Conn × Bool)) (c : Conn) : Option Bool :=
  (m.find? (fun p => p.1 = c)).map (fun p => p.2)

/-- The `WebSocketDisconnect` cleanup of `websocket_wakeup` (main.py lines
218-221): `wake_up_connections.discard(websocket)`,
`conversation_histories.pop(websocket, None)`, `wake_up_active.pop(websocket, None)`. -/
def wakeup_disconnect (st : ServerState) (c : Conn) : ServerState :=
  { st with
    wake_up_connections := st.wake_up_connections.filter (fun x => x ≠ c),
    conversation_histories := st.conversation_histories.filter (fun p => p.1 ≠ c),
    wake_up_active := st.wake_up_active.filter (fun p => p.1 ≠ c) }

/-! ## Parser lemmas -/

theorem openLit_cons : openLit = '<' :: "tool_call>send_message_to_user(\"".data := rfl

theorem closeLit_cons : closeLit = '"' :: closeTail := rfl

theorem openLit_length : openLit.length = 33 := rfl

theorem closeLit_length : closeLit.length = 14 := rfl

theorem dropLit_self_append (p s : List Char) : dropLit p (p ++ s) = some s := by
  induction p with
  | nil => rfl
  | cons a ps ih => simp [dropLit, ih]

theorem dropLit_length : ∀ (p s r : List Char), dropLit p s = some r →
    r.length + p.length = s.length := by
  intro p
  induction p with
  | nil =>
    intro s r h
    simp [dropLit] at h
    simp [h]
  | cons a ps ih =>
    intro s r h
    cases s with
    | nil => simp [dropLit] at h
    | cons b bs =>
      simp only [dropLit] at h
      by_cases hab : a = b
      · rw [if_pos hab] at h
        have := ih bs r h
        simp only [List.length_cons]
        omega
      · rw [if_neg hab] at h
        exact absurd h (by simp)

theorem length_dropWhile_le {α : Type} (p : α → Bool) (l : List α) :
    (l.dropWhile p).length ≤ l.length := by
  induction l with
  | nil => simp [List.dropWhile]
  | cons a as ih =>
    simp only [List.dropWhile]
    cases p a
    · simp
    · simpa using Nat.le_succ_of_le ih

theorem tryMatch_length {s content remaining : List Char}
    (h : tryMatch s = some (content, remaining)) : remaining.length < s.length := by
  unfold tryMatch at h
  cases ho : dropLit openLit s with
  | none => rw [ho] at h; exact absurd h (by simp)
  | some afterOpen =>
    rw [ho] at h
    simp only at h
    by_cases he : (afterOpen.takeWhile notQuote).isEmpty
    · rw [if_pos he] at h; exact absurd h (by simp)
    · rw [if_neg he] at h
      cases hc : dropLit closeLit (afterOpen.dropWhile notQuote) with
      | none => rw [hc] at h; exact absurd h (by simp)
      | some rem =>
        rw [hc] at h
        simp only [Option.some.injEq, Prod.mk.injEq] at h
        have h1 := dropLit_length openLit s afterOpen ho
        have h2 := dropLit_length closeLit (afterOpen.dropWhile notQuote) rem hc
        have h3 := length_dropWhile_le notQuote afterOpen
        rw [openLit_length] at h1
        rw [closeLit_length, h.2] at h2
        omega

theorem parseAux_irrel : ∀ (fuel fuel' : Nat) (s : List Char),
    s.length ≤ fuel → s.length ≤ fuel' → parseAux fuel s = parseAux fuel' s := by
  intro fuel
  induction fuel with
  | zero =>
    intro fuel' s h _
    have hs : s = [] := List.eq_nil_of_length_eq_zero (Nat.le_zero.mp h)
    subst hs
    cases fuel' <;> rfl
  | succ fuel ih =>
    intro fuel' s h h'
    cases s with
    | nil => cases fuel' <;> rfl
    | cons c rest =>
      cases fuel' with
      | zero => simp at h'
      | succ f' =>
        simp only [parseAux]
        cases hm : tryMatch (c :: rest) with
        | none =>
          exact ih f' rest (by simp at h; omega) (by simp at h'; omega)
        | some pr =>
          obtain ⟨content, remaining⟩ := pr
          have hlt := tryMatch_length hm
          simp only [List.length_cons] at hlt h h'
          exact congrArg (fun l => mkToolCall content :: l)
            (ih f' remaining (by omega) (by omega))

theorem parseCL_skip {c : Char} {rest : List Char} (h : tryMatch (c :: rest) = none) :
    parseCL (c :: rest) = parseCL rest := by
  simp [parseCL, parseAux, h]

theorem parseCL_match {s content remaining : List Char} (hne : s ≠ [])
    (h : tryMatch s = some (content, remaining)) :
    parseCL s = mkToolCall content :: parseCL remaining := by
  cases s with
  | nil => exact absurd rfl hne
  | cons c rest =>
    have hlt := tryMatch_length h
    simp only [List.length_cons] at hlt
    simp only [parseCL, List.length_cons, parseAux, h]
    rw [parseAux_irrel rest.length remaining.length remaining (by omega) le_rfl]

theorem tryMatch_none_of_head {c : Char} (rest : List Char) (h : c ≠ '<') :
    tryMatch (c :: rest) = none := by
  have hd : dropLit openLit (c :: rest) = none := by
    rw [openLit_cons]
    simp only [dropLit]
    rw [if_neg (fun hh => h hh.symm)]
  simp [tryMatch, hd]

theorem parseCL_append_noLt {t : List Char} (s : List Char) (h : ∀ a ∈ t, a ≠ '<') :
    parseCL (t ++ s) = parseCL s := by
  induction t with
  | nil => simp
  | cons a as ih =>
    have hskip := tryMatch_none_of_head (as ++ s) (h a (by simp))
    simp only [List.cons_append]
    rw [parseCL_skip hskip]
    exact ih (fun x hx => h x (by simp [hx]))

theorem takeWhile_append_all {α : Type} (p : α → Bool) {l : List α}
    (h : ∀ a ∈ l, p a = true) (l' : List α) :
    (l ++ l').takeWhile p = l ++ l'.takeWhile p := by
  induction l with
  | nil => simp
  | cons a as ih =>
    have ha := h a (by simp)
    simp only [List.cons_append, List.takeWhile_cons, ha, if_true]
    rw [ih (fun x hx => h x (by simp [hx]))]

theorem dropWhile_append_all {α : Type} (p : α → Bool) {l : List α}
    (h : ∀ a ∈ l, p a = true) (l' : List α) :
    (l ++ l').dropWhile p = l'.dropWhile p := by
  induction l with
  | nil => simp
  | cons a as ih =>
    have ha := h a (by simp)
    simp only [List.cons_append, List.dropWhile_cons, ha, if_true]
    exact ih (fun x hx => h x (by simp [hx]))

theorem tryMatch_marker {c : List Char} (s : List Char) (hne : c ≠ []) (hq : '"' ∉ c) :
    tryMatch (markerOf c ++ s) = some (c, s) := by
  have hassoc : markerOf c ++ s = openLit ++ (c ++ (closeLit ++ s)) := by
    simp [markerOf, List.append_assoc]
  have hall : ∀ a ∈ c, notQuote a = true := by
    intro a ha
    simp only [notQuote, bne_iff_ne, ne_eq, decide_eq_true_eq]
    intro hc
    exact hq (hc ▸ ha)
  have hqfalse : notQuote '"' = false := by simp [notQuote]
  have htake : (c ++ (closeLit ++ s)).takeWhile notQuote = c := by
    rw [takeWhile_append_all notQuote hall, closeLit_cons]
    simp [List.takeWhile_cons, hqfalse]
  have hdrop : (c ++ (closeLit ++ s)).dropWhile notQuote = closeLit ++ s := by
    rw [dropWhile_append_all notQuote hall, closeLit_cons]
    simp [List.dropWhile_cons, hqfalse]
  have hemp : c.isEmpty = false := by
    cases c with
    | nil => exact absurd rfl hne
    | cons a as => rfl
  rw [hassoc]
  unfold tryMatch
  rw [dropLit_self_append]
  simp only [htake, hdrop, hemp, Bool.false_eq_true, if_false, dropLit_self_append]

theorem markerOf_append_ne_nil (c s : List Char) : markerOf c ++ s ≠ [] := by
  intro h
  have := congrArg List.length h
  simp [markerOf, openLit_length] at this

theorem parseCL_marker {c : List Char} (s : List Char) (hne : c ≠ []) (hq : '"' ∉ c) :
    parseCL (markerOf c ++ s) = mkToolCall c :: parseCL s :=
  parseCL_match (markerOf_append_ne_nil c s) (tryMatch_marker s hne hq)

theorem parseCL_assemble : ∀ (rest : List (List Char × List Char)) (t0 : List Char),
    (∀ a ∈ t0, a ≠ '<') →
    (∀ p ∈ rest, p.1 ≠ [] ∧ '"' ∉ p.1 ∧ ∀ a ∈ p.2, a ≠ '<') →
    parseCL (assembleCL t0 rest) = rest.map (fun p => mkToolCall p.1) := by
  intro rest
  induction rest with
  | nil =>
    intro t0 h0 _
    have := parseCL_append_noLt (t := t0) [] h0
    simpa [assembleCL] using this
  | cons p ps ih =>
    intro t0 h0 hrest
    obtain ⟨hne, hq, ht⟩ := hrest p (by simp)
    have hassm : assembleCL t0 (p :: ps) = t0 ++ (markerOf p.1 ++ assembleCL p.2 ps) := by
      simp [assembleCL, List.append_assoc]
    rw [hassm, parseCL_append_noLt _ h0, parseCL_marker _ hne hq,
      ih p.2 ht (fun q hq' => hrest q (by simp [hq']))]
    simp

theorem parseCL_ne_nil_of_marker : ∀ (a c b : List Char),
    c ≠ [] → '"' ∉ c → parseCL (a ++ markerOf c ++ b) ≠ [] := by
  intro a
  induction a with
  | nil =>
    intro c b hne hq
    simp only [List.nil_append]
    rw [parseCL_marker b hne hq]
    simp
  | cons x a' ih =>
    intro c b hne hq
    simp only [List.cons_append, List.append_assoc] at *
    cases hm : tryMatch (x :: (a' ++ (markerOf c ++ b))) with
    | none =>
      rw [parseCL_skip hm]
      have := ih c b hne hq
      simpa [List.append_assoc] using this
    | some pr =>
      obtain ⟨ct, rem⟩ := pr
      rw [parseCL_match (by simp) hm]
      simp

/-! ## Stream and chunk-loop lemmas -/

theorem streamThoughtLines_eq : ∀ lines : List BackendLine,
    streamThoughtLines lines =
      (truncAtDone (lines.filterMap id)).map (fun p => Event.thought p.1 p.2) := by
  intro lines
  induction lines with
  | nil => rfl
  | cons l rest ih =>
    cases l with
    | none => simpa [streamThoughtLines, List.filterMap_cons] using ih
    | some p =>
      obtain ⟨r, d⟩ := p
      cases d
      · simp [streamThoughtLines, List.filterMap_cons, truncAtDone, ih]
      · simp [streamThoughtLines, List.filterMap_cons, truncAtDone]

theorem streamOutputLines_eq : ∀ lines : List BackendLine,
    streamOutputLines lines =
      (truncAtDone (lines.filterMap id)).map (fun p => Event.output p.1 p.2) := by
  intro lines
  induction lines with
  | nil => rfl
  | cons l rest ih =>
    cases l with
    | none => simpa [streamOutputLines, List.filterMap_cons] using ih
    | some p =>
      obtain ⟨r, d⟩ := p
      cases d
      · simp [streamOutputLines, List.filterMap_cons, truncAtDone, ih]
      · simp [streamOutputLines, List.filterMap_cons, truncAtDone]

theorem runChunks_eq : ∀ (lines : List BackendLine) (acc : String),
    runChunks lines acc =
      (acc ++ fullOf (lines.filterMap id),
       (truncAtDone (lines.filterMap id)).map (fun p => Event.thought_chunk p.1)) := by
  intro lines
  induction lines with
  | nil => intro acc; simp [runChunks, fullOf, truncAtDone]
  | cons l rest ih =>
    intro acc
    cases l with
    | none => simpa [runChunks, List.filterMap_cons] using ih acc
    | some p =>
      obtain ⟨r, d⟩ := p
      cases d
      · simp [runChunks, List.filterMap_cons, truncAtDone, fullOf, ih (acc ++ r),
          String.append_assoc]
      · simp [runChunks, List.filterMap_cons, truncAtDone, fullOf]

theorem streamThoughtLinesRaw_abortFree : ∀ lines : List BackendLine,
    streamThoughtLinesRaw (lines.map rawOf) = (streamThoughtLines lines, false) := by
  intro lines
  induction lines with
  | nil => rfl
  | cons l rest ih =>
    cases l with
    | none => simpa [rawOf, streamThoughtLinesRaw, streamThoughtLines] using ih
    | some p =>
      obtain ⟨r, d⟩ := p
      cases d
      · simp [rawOf, streamThoughtLinesRaw, streamThoughtLines, ih]
      · simp [rawOf, streamThoughtLinesRaw, streamThoughtLines]

theorem runChunksRaw_abortFree : ∀ (lines : List BackendLine) (acc : String),
    runChunksRaw (lines.map rawOf) acc =
      ((runChunks lines acc).1, (runChunks lines acc).2, false) := by
  intro lines
  induction lines with
  | nil => intro acc; rfl
  | cons l rest ih =>
    intro acc
    cases l with
    | none => simpa [rawOf, runChunksRaw, runChunks] using ih acc
    | some p =>
      obtain ⟨r, d⟩ := p
      cases d
      · simp [rawOf, runChunksRaw, runChunks, ih (acc ++ r)]
      · simp [rawOf, runChunksRaw, runChunks]

/-! ## Broadcast lemmas -/

theorem broadcastRun_fst (sendOk : Conn → Bool) :
    ∀ conns, (broadcastRun sendOk conns).1 = conns.filter sendOk := by
  intro conns
  induction conns with
  | nil => rfl
  | cons c rest ih =>
    simp only [broadcastRun, List.filter_cons]
    cases h : sendOk c
    · simpa [h] using ih
    · simpa [h] using ih

theorem broadcastRun_snd (sendOk : Conn → Bool) :
    ∀ conns, (broadcastRun sendOk conns).2 = conns.filter (fun c => !sendOk c) := by
  intro conns
  induction conns with
  | nil => rfl
  | cons c rest ih =>
    simp only [broadcastRun, List.filter_cons]
    cases h : sendOk c
    · simpa [h] using ih
    · simpa [h] using ih

theorem filter_not_contains_eq (conns : List Conn) (sendOk : Conn → Bool) :
    conns.filter (fun c => !((conns.filter (fun x => !sendOk x)).contains c)) =
      conns.filter sendOk := by
  apply List.filter_congr
  intro a ha
  cases hs : sendOk a
  · have hm : a ∈ conns.filter (fun x => !sendOk x) :=
      List.mem_filter.mpr ⟨ha, by simp [hs]⟩
    simp [List.contains, List.elem_iff, hm]
  · have hm : a ∉ conns.filter (fun x => !sendOk x) := by
      intro hmem
      have := (List.mem_filter.mp hmem).2
      simp [hs] at this
    simp [List.contains, List.elem_iff, hm]

theorem broadcast_to_outputs_fst (conns : List Conn) (sendOk : Conn → Bool) :
    (broadcast_to_outputs conns sendOk).1 = conns.filter sendOk := by
  simp [broadcast_to_outputs, broadcastRun_fst]

theorem broadcast_to_outputs_snd (conns : List Conn) (sendOk : Conn → Bool) :
    (broadcast_to_outputs conns sendOk).2 = conns.filter sendOk := by
  simp only [broadcast_to_outputs, broadcastRun_snd]
  exact filter_not_contains_eq conns sendOk

theorem broadcast_to_thoughts_fst (conns : List Conn) (sendOk : Conn → Bool) :
    (broadcast_to_thoughts conns sendOk).1 = conns.filter sendOk := by
  simp [broadcast_to_thoughts, broadcastRun_fst]

theorem broadcast_to_thoughts_snd (conns : List Conn) (sendOk : Conn → Bool) :
    (broadcast_to_thoughts conns sendOk).2 = conns.filter sendOk := by
  simp only [broadcast_to_thoughts, broadcastRun_snd]
  exact filter_not_contains_eq conns sendOk

/-! ## Prompt-composition lemmas -/

/-- Specification-side helper: the concatenation of the rendered history
entries, in order. -/
def joinRender : List HistEntry → String
  | [] => ""
  | e :: rest => renderEntry e ++ joinRender rest

theorem foldl_render : ∀ (l : List HistEntry) (acc : String),
    l.foldl (fun a e => a ++ renderEntry e) acc = acc ++ joinRender l := by
  intro l
  induction l with
  | nil => intro acc; simp [joinRender]
  | cons e rest ih =>
    intro acc
    simp only [List.foldl_cons, joinRender]
    rw [ih (acc ++ renderEntry e), String.append_assoc]

/-! ## Lookup lemmas for the disconnect cleanup -/

theorem find?_filter_ne_none {α : Type} (m : List (Conn × α)) (c : Conn) :
    (m.filter (fun p => p.1 ≠ c)).find? (fun p => p.1 = c) = none := by
  rw [List.find?_eq_none]
  intro x hx
  have hmem := (List.mem_filter.mp hx).2
  simp at hmem ⊢
  exact hmem

theorem not_mem_filter_ne (l : List Conn) (c : Conn) :
    c ∉ l.filter (fun x => x ≠ c) := by
  intro h
  have := (List.mem_filter.mp h).2
  simp at this

/-! ## Done-chunk delivery lemmas -/

theorem thought_done_mem : ∀ lines : List BackendLine,
    (lines.filterMap id).any (fun p => p.2) = true →
    ∃ r, Event.thought r true ∈ streamThoughtLines lines := by
  intro lines
  induction lines with
  | nil => intro h; simp at h
  | cons l rest ih =>
    intro h
    cases l with
    | none =>
      obtain ⟨r, hm⟩ := ih (by simpa [List.filterMap_cons] using h)
      exact ⟨r, by simpa [streamThoughtLines] using hm⟩
    | some p =>
      obtain ⟨r, d⟩ := p
      cases d
      · obtain ⟨r', hm⟩ := ih (by simpa [List.filterMap_cons] using h)
        exact ⟨r', by simp [streamThoughtLines, hm]⟩
      · exact ⟨r, by simp [streamThoughtLines]⟩

theorem output_done_mem : ∀ lines : List BackendLine,
    (lines.filterMap id).any (fun p => p.2) = true →
    ∃ r, Event.output r true ∈ streamOutputLines lines := by
  intro lines
  induction lines with
  | nil => intro h; simp at h
  | cons l rest ih =>
    intro h
    cases l with
    | none =>
      obtain ⟨r, hm⟩ := ih (by simpa [List.filterMap_cons] using h)
      exact ⟨r, by simpa [streamOutputLines] using hm⟩
    | some p =>
      obtain ⟨r, d⟩ := p
      cases d
      · obtain ⟨r', hm⟩ := ih (by simpa [List.filterMap_cons] using h)
        exact ⟨r', by simp [streamOutputLines, hm]⟩
      · exact ⟨r, by simp [streamOutputLines]⟩

/-! ## Claim theorems -/

/-- C1 (code defect): processing a further `wake_up` message for a session
whose `active` flag is already true spawns a second concurrent wake-loop
task: the handler never observes `active = false` before flipping the flag
and calling `asyncio.create_task(wake_up_loop(...))`, so the task count
goes from 1 to 2. -/
theorem wakeup_second_task_spawned :
    (websocket_wakeup_handle ⟨true, 1⟩ InMsg.wake_up).1.tasks = 2
    ∧ (websocket_wakeup_handle ⟨true, 1⟩ InMsg.wake_up).1.active = true :=
  ⟨rfl, rfl⟩

/-- C2: the tool-call parser returns exactly one
`ToolCall{name := "send_message_to_user", args := {message := content}}`
per non-overlapping well-formed marker, in left-to-right order: (1) an
input assembled from marker-free separator texts around `N` well-formed
markers parses to exactly those `N` calls in document order (`N = 0` gives
the empty list); (2) any input containing a well-formed marker parses to a
non-empty list, so an empty result means no well-formed marker occurs;
(3) a marker with an unterminated quote yields no match; parsing is a
total function, so it never fails. -/
theorem parse_tool_calls_markers :
    (∀ (t0 : List Char) (rest : List (List Char × List Char)),
      (∀ a ∈ t0, a ≠ '<') →
      (∀ p ∈ rest, p.1 ≠ [] ∧ '"' ∉ p.1 ∧ ∀ a ∈ p.2, a ≠ '<') →
      parseCL (assembleCL t0 rest) = rest.map (fun p => mkToolCall p.1))
    ∧ (∀ (a c b : List Char), c ≠ [] → '"' ∉ c →
        parseCL (a ++ markerOf c ++ b) ≠ [])
    ∧ parse_tool_calls "<tool_call>send_message_to_user(\"abc</tool_call>" = [] := by
  refine ⟨fun t0 rest h0 hr => parseCL_assemble rest t0 h0 hr,
    parseCL_ne_nil_of_marker, by decide⟩

theorem parse_tool_calls_markers_witness :
    (∀ a ∈ (['x'] : List Char), a ≠ '<')
    ∧ parseCL (assembleCL ['x'] [(['h', 'i'], ['y']), (['z'], [])]) =
        [mkToolCall ['h', 'i'], mkToolCall ['z']] :=
  ⟨by decide,
   (parse_tool_calls_markers.1 ['x'] [(['h', 'i'], ['y']), (['z'], [])]
      (by decide) (by decide)).trans (by decide)⟩

/-- C3: a broadcast attempts every connection registered in the channel at
the start (each one ends up delivered or collected as disconnected), a
delivery failure on one connection does not abort the rest (the delivered
connections are exactly the non-failing ones, in registration order), and
exactly the failing connections are removed from the channel afterwards;
the removal happens after the iteration, on the snapshot of failures. -/
theorem broadcast_failure_isolation :
    ∀ (conns : List Conn) (sendOk : Conn → Bool),
      (broadcast_to_outputs conns sendOk).1 = conns.filter sendOk
      ∧ (broadcast_to_outputs conns sendOk).2 = conns.filter sendOk
      ∧ (broadcast_to_thoughts conns sendOk).1 = conns.filter sendOk
      ∧ (broadcast_to_thoughts conns sendOk).2 = conns.filter sendOk
      ∧ (∀ c ∈ conns,
          c ∈ (broadcastRun sendOk conns).1 ∨ c ∈ (broadcastRun sendOk conns).2) := by
  intro conns sendOk
  refine ⟨broadcast_to_outputs_fst conns sendOk, broadcast_to_outputs_snd conns sendOk,
    broadcast_to_thoughts_fst conns sendOk, broadcast_to_thoughts_snd conns sendOk, ?_⟩
  intro c hc
  rw [broadcastRun_fst, broadcastRun_snd]
  cases h : sendOk c
  · exact Or.inr (List.mem_filter.mpr ⟨hc, by simp [h]⟩)
  · exact Or.inl (List.mem_filter.mpr ⟨hc, h⟩)

/-- C4 counterexample: a cycle whose backend stream yields no decodable
lines ends with an empty `full_response`, yet the code still appends a
history entry (with empty thought text); the claim predicts that an
empty-response cycle adds no entry. -/
theorem history_append_claim_counterexample :
    (wake_up_cycle [] "t0" (BackendResult.ok [])).1 = [⟨"t0", ""⟩]
    ∧ ([(⟨"t0", ""⟩ : HistEntry)] : List HistEntry) ≠ [] :=
  ⟨rfl, by decide⟩

/-- C4 amended: in every cycle that consumes the backend stream the code
appends `{timestamp, fullResponse}` to the session's history
unconditionally — also when `fullResponse` is empty; the code has no
interrupt mechanism, so no cycle is ever interrupted.  Only the error
paths (transport error, unexpected exception) leave the history unchanged. -/
theorem history_append_unconditional :
    ∀ (h : List HistEntry) (ts : String),
      (∀ lines, (wake_up_cycle h ts (BackendResult.ok lines)).1 =
        h ++ [⟨ts, fullOf (lines.filterMap id)⟩])
      ∧ (∀ m, (wake_up_cycle h ts (BackendResult.transportError m)).1 = h)
      ∧ (∀ m, (wake_up_cycle h ts (BackendResult.unexpectedError m)).1 = h) := by
  intro h ts
  refine ⟨?_, fun m => rfl, fun m => rfl⟩
  intro lines
  simp [wake_up_cycle, runChunks_eq]

/-- C5 (code defect): the outer `except Exception` does convert a
cycle-body exception into an error report, but that report is sent with an
unguarded `send_json` on the wakeup socket.  At the failing input a
mid-cycle disconnect has popped the session keys, the body raises
`KeyError` at the line-304 history append, and the handler's `send_json`
on the closed socket raises in turn: the new exception escapes
`wake_up_loop`, the task dies with `active` still true, no error event is
delivered, and the remaining healthy cycle never runs.  When the report
send succeeds, the intended containment does hold: error event, 5-second
backoff, loop continues. -/
theorem wake_loop_report_send_escape :
    wake_up_loopFull
      [⟨true, "t1", BackendResult.unexpectedError "KeyError", false⟩,
       ⟨true, "t2", BackendResult.ok [some ("x", true)], true⟩] []
      = ([], [], LoopExit.escaped)
    ∧ wake_up_loopFull [⟨true, "t1", BackendResult.unexpectedError "KeyError", true⟩] []
      = ([], [Event.error ("Error in wake up loop: " ++ "KeyError"), Event.sleepDelay 5],
         LoopExit.envsExhausted) :=
  ⟨rfl, rfl⟩

/-- C6: after a wakeup connection disconnects, its session state is
removed (it is no longer in `wake_up_connections`, and its history and
active-flag entries are gone), the loop's `while` check
`wake_up_active.get(websocket, False)` reads `false` so a running loop
stops at its next check with no further events or history changes, and
subsequent broadcasts never attempt delivery to it: the connection is in
no broadcast group (it was never in the thoughts/outputs groups, and the
disconnect does not add it). -/
theorem disconnect_cleanup :
    ∀ (st : ServerState) (c : Conn),
      c ∉ (wakeup_disconnect st c).wake_up_connections
      ∧ lookupHist (wakeup_disconnect st c).conversation_histories c = none
      ∧ lookupActive (wakeup_disconnect st c).wake_up_active c = none
      ∧ activeGetD (wakeup_disconnect st c).wake_up_active c = false
      ∧ (∀ (ts : String) (res : BackendResult) (rest : List CycleEnv)
            (h : List HistEntry),
          wake_up_loop
            (⟨activeGetD (wakeup_disconnect st c).wake_up_active c, ts, res⟩ :: rest) h
            = (h, [], true))
      ∧ (c ∉ st.outputs_connections → ∀ sendOk : Conn → Bool,
          c ∉ (broadcast_to_outputs (wakeup_disconnect st c).outputs_connections sendOk).1)
      ∧ (c ∉ st.thoughts_connections → ∀ sendOk : Conn → Bool,
          c ∉ (broadcast_to_thoughts (wakeup_disconnect st c).thoughts_connections sendOk).1) := by
  intro st c
  have hget : activeGetD (wakeup_disconnect st c).wake_up_active c = false := by
    have h1 := find?_filter_ne_none st.wake_up_active c
    simp only [activeGetD, wakeup_disconnect]
    rw [h1]
    rfl
  refine ⟨not_mem_filter_ne _ c, ?_, ?_, hget, ?_, ?_, ?_⟩
  · simp [lookupHist, wakeup_disconnect, find?_filter_ne_none]
  · simp [lookupActive, wakeup_disconnect, find?_filter_ne_none]
  · intro ts res rest h
    rw [hget]
    simp [wake_up_loop]
  · intro hout sendOk hmem
    rw [broadcast_to_outputs_fst] at hmem
    exact hout (List.mem_filter.mp hmem).1
  · intro hth sendOk hmem
    rw [broadcast_to_thoughts_fst] at hmem
    exact hth (List.mem_filter.mp hmem).1

theorem disconnect_cleanup_witness :
    ((1 : Conn) ∉ ([5] : List Conn))
    ∧ (1 : Conn) ∉ (broadcast_to_outputs
        (wakeup_disconnect ⟨[], [5], [1], [(1, [])], [(1, true)]⟩ 1).outputs_connections
        (fun _ => true)).1 :=
  ⟨by decide,
   (disconnect_cleanup ⟨[], [5], [1], [(1, [])], [(1, true)]⟩ 1).2.2.2.2.2.1
      (by decide) (fun _ => true)⟩

/-- C7 (code defect): a backend line that is valid JSON but not an object
(for example the line `42`) passes `json.loads`, and `data.get` then
raises `AttributeError`, which `except json.JSONDecodeError` does not
catch: in the one-shot thoughts stream the line loop aborts — the line
yields no event and a later `done` chunk is never delivered — and the wake
loop's chunk loop aborts its cycle the same way; decoded object lines
before the bad one keep their single forwarded event and skipped lines
stay non-fatal. -/
theorem nonobject_line_aborts_stream :
    streamThoughtLinesRaw [RawLine.nonObject, RawLine.obj "hi" true] = ([], true)
    ∧ streamThoughtLinesRaw
        [RawLine.obj "a" false, RawLine.skipped, RawLine.nonObject, RawLine.obj "b" true]
      = ([Event.thought "a" false], true)
    ∧ runChunksRaw [RawLine.obj "a" false, RawLine.nonObject, RawLine.obj "b" true] ""
      = ("a", [Event.thought_chunk "a"], true) :=
  ⟨rfl, rfl, rfl⟩

set_option maxRecDepth 4000 in
/-- C8 counterexample: for a session with empty history (and nothing
pending) the claim's prompt shape is the preamble followed directly by the
continuation instruction, but the composed prompt differs: the code
inserts a "(No previous thoughts yet)" placeholder, and it has no
`pendingUserMessages` segment at all. -/
theorem compose_prompt_claim_counterexample :
    compose_prompt [] ≠ system_preamble ++ continuation_instruction := by
  decide

/-- C8 amended: the composed prompt is the fixed system preamble
(describing `send_message_to_user` and its exact textual invocation
syntax), followed by every history entry in order rendered as
`\n[timestamp] thought\n` — or by the placeholder
`\n(No previous thoughts yet)\n` when the history is empty — followed by a
continuation instruction.  There is no `pendingUserMessages` segment: the
handler supports no `user_message` messages and keeps no pending queue. -/
theorem compose_prompt_structure :
    ∀ history : List HistEntry,
      (history = [] → compose_prompt history =
        system_preamble ++ no_thoughts_placeholder ++ continuation_instruction)
      ∧ (history ≠ [] → compose_prompt history =
        system_preamble ++ joinRender history ++ continuation_instruction) := by
  intro history
  constructor
  · intro h
    subst h
    rfl
  · intro h
    have hne : history.isEmpty = false := by
      cases history with
      | nil => exact absurd rfl h
      | cons e rest => rfl
    simp only [compose_prompt, hne, Bool.false_eq_true, if_false]
    rw [foldl_render]

theorem compose_prompt_structure_witness :
    ([(⟨"t", "x"⟩ : HistEntry)] ≠ ([] : List HistEntry))
    ∧ compose_prompt [⟨"t", "x"⟩] =
        system_preamble ++ joinRender [⟨"t", "x"⟩] ++ continuation_instruction :=
  ⟨by decide, (compose_prompt_structure [⟨"t", "x"⟩]).2 (by decide)⟩

/-- C9: the parser does not match a marker whose quoted content is empty:
`<tool_call>send_message_to_user("")</tool_call>` parses to the empty
list, because `[^"]+` requires at least one non-quote character between
the quotes. -/
theorem empty_content_marker_unmatched :
    parse_tool_calls "<tool_call>send_message_to_user(\"\")</tool_call>" = [] := by
  decide

/-- C10: in the one-shot generation streams the final chunk itself is
delivered: whenever the decoded backend lines contain a `done`-flagged
chunk, a done-marked `thought` (resp. `output`) event is among the events
sent to the websocket before streaming terminates. -/
theorem final_chunk_delivered :
    (∀ lines : List BackendLine, (lines.filterMap id).any (fun p => p.2) = true →
      ∃ r, Event.thought r true ∈ stream_thoughts_to_ollama (GenOutcome.ok lines))
    ∧ (∀ lines : List BackendLine, (lines.filterMap id).any (fun p => p.2) = true →
      ∃ r, Event.output r true ∈ stream_outputs_to_ollama (GenOutcome.ok lines)) :=
  ⟨fun lines h => thought_done_mem lines h, fun lines h => output_done_mem lines h⟩

theorem final_chunk_delivered_witness :
    (([some ("hi", true)] : List BackendLine).filterMap id).any (fun p => p.2) = true
    ∧ ∃ r, Event.thought r true ∈
        stream_thoughts_to_ollama (GenOutcome.ok [some ("hi", true)]) :=
  ⟨by decide, final_chunk_delivered.1 [some ("hi", true)] (by decide)⟩

theorem broadcast_failure_isolation_witness :
    ((2 : Conn) ∈ ([1, 2, 3] : List Conn))
    ∧ ((2 : Conn) ∈ (broadcastRun (fun c => c != 2) [1, 2, 3]).1
       ∨ (2 : Conn) ∈ (broadcastRun (fun c => c != 2) [1, 2, 3]).2) :=
  ⟨by decide,
   (broadcast_failure_isolation [1, 2, 3] (fun c => c != 2)).2.2.2.2 2 (by decide)⟩
